import Mathlib

/-! Shallow embedding of `auto_control_tools.analysis.stability`, the
Routh-Hurwitz stability-table engine.  Python floats are modelled as exact
rationals `ℚ`; the float tolerances 1e-6, 1e-12 and 1e-15 become the
corresponding rationals.  The diagnostic note strings are modelled by the
inductive type `Note`, keeping the data the strings carry (which edge case
fired, and on which table row). -/

instance exceptDecEq {ε α : Type} [DecidableEq ε] [DecidableEq α] :
    DecidableEq (Except ε α) := fun a b =>
  match a, b with
  | Except.error x, Except.error y =>
      if h : x = y then isTrue (by rw [h])
      else isFalse (fun hc => by cases hc; exact h rfl)
  | Except.error _, Except.ok _ => isFalse (fun hc => by cases hc)
  | Except.ok _, Except.error _ => isFalse (fun hc => by cases hc)
  | Except.ok x, Except.ok y =>
      if h : x = y then isTrue (by rw [h])
      else isFalse (fun hc => by cases hc; exact h rfl)

/-- Diagnostic notes appended by `_build_routh_table`.  `pivotEps k` models
the string "Linha s^k: pivo 0 substituido por epsilon=..." and `zeroRow k`
models "Linha s^k toda zero: usada derivada do polinomio auxiliar." -/
inductive Note where
  | pivotEps (rowExp : Nat)
  | zeroRow (rowExp : Nat)
  deriving DecidableEq

/-- Configuration of `RouthHurwitz.__init__`: `epsilon` (pivot substitute,
default 1e-6), `zeroRowEpsilon` (near-zero tolerance, default 1e-12) and
`normalizeLeading` (default true). -/
structure RouthConfig where
  epsilon : ℚ
  zeroRowEpsilon : ℚ
  normalizeLeading : Bool
  deriving DecidableEq

/-- The default configuration of `RouthHurwitz.__init__`. -/
def defaultCfg : RouthConfig := ⟨1 / 1000000, 1 / 1000000000000, true⟩

/-- The default configuration with `normalize_leading = False`. -/
def cfgNoNormalize : RouthConfig := ⟨1 / 1000000, 1 / 1000000000000, false⟩

/-- Python's `abs` on rationals, written so that it evaluates by kernel
reduction. -/
def qabs (x : ℚ) : ℚ := if x < 0 then -x else x

/-- The test `abs(x) < tol` used throughout the module. -/
def nearZero (tol x : ℚ) : Bool := decide (qabs x < tol)

/-- Input validation and normalization done by `RouthHurwitz.__init__`
(stability.py lines 206-228): empty check, all-near-zero check, stripping of
near-zero leading coefficients (with its own emptiness check), and optional
division of every coefficient by the leading one. -/
def routhInit (cfg : RouthConfig) (coeffs : List ℚ) : Except String (List ℚ) :=
  if coeffs = [] then
    Except.error "A lista de coeficientes nao pode ser vazia."
  else if coeffs.all (nearZero cfg.zeroRowEpsilon) then
    Except.error "Todos os coeficientes sao ~0. Polinomio invalido."
  else
    let stripped := coeffs.dropWhile (nearZero cfg.zeroRowEpsilon)
    if stripped = [] then
      Except.error "Polinomio de grau indefinido (apenas zeros)."
    else if cfg.normalizeLeading = true ∧ 0 < qabs (stripped.getD 0 0) then
      Except.ok (stripped.map (fun c => c / stripped.getD 0 0))
    else
      Except.ok stripped

/-- Embedding of `RouthHurwitz._coeff_at`: the coefficient of `s^power`, 0 when the index
`n - power` falls outside the coefficient list. -/
def coeffAt (coeffs : List ℚ) (n : Nat) (power : Int) : ℚ :=
  let idx : Int := (n : Int) - power
  if idx < 0 ∨ (coeffs.length : Int) ≤ idx then 0
  else coeffs.getD idx.toNat 0

/-- The first two table rows (stability.py lines 253-266): entry `j` of the
row with parity `par` (0 for row `s^n`, 1 for row `s^(n-1)`) is the
coefficient of `s^(n - (2 j + par))`. -/
def initialRow (coeffs : List ℚ) (n m par : Nat) : List ℚ :=
  (List.range' 0 m).map (fun j => coeffAt coeffs n ((n : Int) - ((2 * j + par : Nat) : Int)))

/-- Embedding of `RouthHurwitz._row_to_poly`: the imperative loop places `row[t]` at
polynomial index `2 t` (power `degree - 2 t`) while that power is
nonnegative, leaving every other index at zero. -/
def rowToPoly (row : List ℚ) (degree : Nat) : List ℚ :=
  (List.range' 0 (degree + 1)).map (fun idx =>
    if idx % 2 = 0 ∧ idx / 2 < row.length then row.getD (idx / 2) 0 else 0)

/-- Embedding of `RouthHurwitz._poly_to_row`: entry `j` of the produced row is the
polynomial coefficient at index `2 j` while `2 j` does not pass the last
index, zero afterwards. -/
def polyToRow (poly : List ℚ) (m : Nat) : List ℚ :=
  (List.range' 0 m).map (fun j =>
    if 2 * j ≤ poly.length - 1 then poly.getD (2 * j) 0 else 0)

/-- Embedding of `RouthHurwitz._poly_derivative`: `deriv[i] = poly[i] * (n - i)` with
`n = len(poly) - 1`; degenerate inputs give `[0]`. -/
def polyDerivative (poly : List ℚ) : List ℚ :=
  if poly.length ≤ 1 then [0]
  else (List.range' 0 (poly.length - 1)).map
    (fun i => poly.getD i 0 * ((poly.length - 1 - i : Nat) : ℚ))

/-- The coefficient of power `p` in a highest-power-first coefficient list. -/
def polyCoeffAtPow (poly : List ℚ) (p : Nat) : ℚ :=
  poly.getD (poly.length - 1 - p) 0

/-- Pivot substitution (stability.py lines 275-277): when the leading entry
is near zero the computation continues on a copy whose head is replaced by
`epsilon`; the original row object is left untouched. -/
def stabilizePivot (cfg : RouthConfig) (row : List ℚ) : List ℚ :=
  if nearZero cfg.zeroRowEpsilon (row.getD 0 0) then cfg.epsilon :: row.tail else row

/-- The standard Routh recurrence (stability.py lines 294-301): entries
`0 .. m-2` by cross-multiplication with `prev[0]` as divisor, last column
left at zero. -/
def routhNextRow (prev prev2 : List ℚ) (m : Nat) : List ℚ :=
  (List.range' 0 m).map (fun j =>
    if j + 1 < m then
      (prev.getD 0 0 * prev2.getD (j + 1) 0 - prev2.getD 0 0 * prev.getD (j + 1) 0)
        / prev.getD 0 0
    else 0)

/-- One iteration of the row loop of `_build_routh_table` (stability.py lines
269-303) for row index `i`: the pivot check (with its note) comes first, then
the all-zero check on the possibly substituted copy, then either the
auxiliary-polynomial derivative or the standard recurrence; the new row is
appended to the table. -/
def buildStep (cfg : RouthConfig) (n m : Nat) (tn : List (List ℚ) × List Note) (i : Nat) :
    List (List ℚ) × List Note :=
  let table := tn.1
  let prevOrig := table.getD (i - 1) []
  let prev2 := table.getD (i - 2) []
  let prev := stabilizePivot cfg prevOrig
  let notes1 :=
    if nearZero cfg.zeroRowEpsilon (prevOrig.getD 0 0) then
      tn.2 ++ [Note.pivotEps (n - (i - 1))]
    else tn.2
  if prev.all (nearZero cfg.zeroRowEpsilon) then
    (table ++ [polyToRow (polyDerivative (rowToPoly prev2 (n - (i - 2)))) m],
      notes1 ++ [Note.zeroRow (n - (i - 1))])
  else
    (table ++ [routhNextRow prev prev2 m], notes1)

/-- Embedding of `RouthHurwitz._build_routh_table` (stability.py lines 247-305): the two
initial rows followed by the loop for `i = 2 .. n`.  Returns the table, the
row labels (as the exponents `n, n-1, ..., 0` of the `s^k` labels) and the
accumulated notes. -/
def buildRouthTable (cfg : RouthConfig) (cs : List ℚ) :
    List (List ℚ) × List Nat × List Note :=
  let n := cs.length - 1
  let m := (n + 2) / 2
  let start : List (List ℚ) × List Note :=
    ([initialRow cs n m 0, initialRow cs n m 1], [])
  let fin := (List.range' 2 (n - 1)).foldl (buildStep cfg n m) start
  (fin.1, (List.range' 0 (n + 1)).map (fun k => n - k), fin.2)

/-- The pair test of `_count_sign_changes`: a pair is skipped when either
value is zero and counted when the signs are strictly opposite. -/
def signChangePair (a b : ℚ) : Bool :=
  if a = 0 ∨ b = 0 then false
  else decide ((0 < a ∧ b < 0) ∨ (a < 0 ∧ 0 < b))

/-- Embedding of `RouthHurwitz._count_sign_changes` (stability.py lines 354-370): values
within `tol` of zero are replaced by the fixed value 1e-15, then adjacent
sign reversals are counted. -/
def countSignChanges (values : List ℚ) (tol : ℚ) : Nat :=
  let cleaned := values.map (fun v => if qabs v < tol then (1 : ℚ) / 1000000000000000 else v)
  ((cleaned.zip cleaned.tail).filter (fun p => signChangePair p.1 p.2)).length

/-- The `RouthResult` dataclass (stability.py lines 54-63); the row labels
are kept as the exponents of the `s^k` label strings. -/
structure RouthResult where
  order : Nat
  coefficients : List ℚ
  table : List (List ℚ)
  rowLabels : List Nat
  firstColumn : List ℚ
  rhpPoles : Nat
  isStable : Bool
  notes : List Note
  deriving DecidableEq

/-- Embedding of `RouthHurwitz.compute` (stability.py lines 231-244) on already validated
coefficients: build the table, read the first column (`row[0]` when the row
is nonempty, else 0), count sign changes with the hard-coded tolerance
1e-12, and assemble the result. -/
def computeResult (cfg : RouthConfig) (cs : List ℚ) : RouthResult :=
  let bt := buildRouthTable cfg cs
  let firstCol := bt.1.map (fun r => r.getD 0 0)
  let rhp := countSignChanges firstCol (1 / 1000000000000)
  ⟨cs.length - 1, cs, bt.1, bt.2.1, firstCol, rhp, decide (rhp = 0), bt.2.2⟩

/-- The functional wrapper `routh_hurwitz` (stability.py lines 373-382):
validation followed by `compute`; validation failures surface as
`Except.error` before any table row is constructed. -/
def routhHurwitz (cfg : RouthConfig) (coeffs : List ℚ) : Except String RouthResult :=
  match routhInit cfg coeffs with
  | Except.error e => Except.error e
  | Except.ok cs => Except.ok (computeResult cfg cs)

/-- The full result of the run on `[1, 2, 3, 4]` (s^3 + 2 s^2 + 3 s + 4). -/
def resultOf1234 : RouthResult :=
  ⟨3, [1, 2, 3, 4], [[1, 3], [2, 4], [1, 0], [4, 0]], [3, 2, 1, 0],
    [1, 2, 1, 4], 0, true, []⟩

/-- The full result of the run on `[1, 0, 2, 0, 1]` (s^4 + 2 s^2 + 1). -/
def resultOf10201 : RouthResult :=
  ⟨4, [1, 0, 2, 0, 1], [[1, 2, 1], [0, 0, 0], [2, 1, 0], [0, 0, 0], [1, 0, 0]],
    [4, 3, 2, 1, 0], [1, 0, 2, 0, 1], 0, true,
    [Note.pivotEps 3, Note.pivotEps 1]⟩

/-- Evaluating `coeffAt` at power `n - k` reads index `k` of the coefficient list. -/
theorem coeffAt_shift (coeffs : List ℚ) (n k : Nat) :
    coeffAt coeffs n ((n : Int) - (k : Int)) =
      if k < coeffs.length then coeffs.getD k 0 else 0 := by
  unfold coeffAt
  have hidx : (n : Int) - ((n : Int) - (k : Int)) = (k : Int) := by ring
  rw [hidx]
  by_cases h : k < coeffs.length
  · rw [if_neg, if_pos h]
    · simp
    · push_cast [not_or]
      omega
  · rw [if_pos, if_neg h]
    right
    omega

/-- Equation for `initialRow` without integer indices, for evaluation. -/
theorem initialRow_eq (coeffs : List ℚ) (n m par : Nat) :
    initialRow coeffs n m par =
      (List.range' 0 m).map (fun j =>
        if 2 * j + par < coeffs.length then coeffs.getD (2 * j + par) 0 else 0) := by
  unfold initialRow
  exact congrArg (fun f => List.map f (List.range' 0 m))
    (funext fun j => coeffAt_shift coeffs n (2 * j + par))

/-- Fact that `qabs` agrees with the mathematical absolute value. -/
theorem qabs_eq_abs (x : ℚ) : qabs x = |x| := by
  by_cases h : x < 0
  · rw [qabs, if_pos h, abs_of_neg h]
  · rw [qabs, if_neg h, abs_of_nonneg (le_of_not_lt h)]

/-- Fact that `nearZero` decides exactly the predicate of the specification. -/
theorem nearZero_iff (tol x : ℚ) : nearZero tol x = true ↔ |x| < tol := by
  rw [nearZero, decide_eq_true_iff, qabs_eq_abs]

/-- Once the substitute `epsilon` is at least `zero_row_epsilon`, the
substituted pivot never tests as near zero. -/
theorem nearZero_eps_false (cfg : RouthConfig) (h : cfg.zeroRowEpsilon ≤ cfg.epsilon) :
    nearZero cfg.zeroRowEpsilon cfg.epsilon = false := by
  apply Bool.eq_false_iff.mpr
  intro htrue
  exact absurd ((nearZero_iff _ _).mp htrue) (not_lt.mpr (le_trans h (le_abs_self _)))

theorem length_initialRow (coeffs : List ℚ) (n m par : Nat) :
    (initialRow coeffs n m par).length = m := by
  rw [initialRow, List.length_map, List.length_range']

theorem length_polyToRow (poly : List ℚ) (m : Nat) : (polyToRow poly m).length = m := by
  rw [polyToRow, List.length_map, List.length_range']

theorem length_routhNextRow (prev prev2 : List ℚ) (m : Nat) :
    (routhNextRow prev prev2 m).length = m := by
  rw [routhNextRow, List.length_map, List.length_range']

theorem getD_append_length {α : Type} (l : List α) (x d : α) :
    (l ++ [x]).getD l.length d = x := by
  rw [List.getD_eq_getElem?_getD, List.getElem?_append_right (le_refl _), Nat.sub_self]
  rfl

/-- Indexing a row produced as a map over `range' 0 m`. -/
theorem getD_range'_map (f : Nat → ℚ) (m j : Nat) (hj : j < m) :
    ((List.range' 0 m).map f).getD j 0 = f j := by
  have hlen : j < ((List.range' 0 m).map f).length := by
    rw [List.length_map, List.length_range']
    exact hj
  rw [List.getD_eq_getElem _ _ hlen, List.getElem_map, List.getElem_range']
  norm_num

/-- After `stabilizePivot`, a nonempty row can never be entirely near zero
when `epsilon` is at least `zero_row_epsilon`: either its head was left in
place because it is not near zero, or it was replaced by `epsilon`. -/
theorem stabilizePivot_all_false (cfg : RouthConfig)
    (heps : cfg.zeroRowEpsilon ≤ cfg.epsilon) (row : List ℚ) (hrow : row ≠ []) :
    (stabilizePivot cfg row).all (nearZero cfg.zeroRowEpsilon) = false := by
  obtain ⟨a, t, rfl⟩ := List.exists_cons_of_ne_nil hrow
  rw [stabilizePivot]
  by_cases h : nearZero cfg.zeroRowEpsilon ((a :: t).getD 0 0) = true
  · rw [if_pos h, List.tail_cons, List.all_cons, nearZero_eps_false cfg heps,
      Bool.false_and]
  · rw [if_neg h, List.all_cons]
    have ha : nearZero cfg.zeroRowEpsilon a = false := Bool.eq_false_iff.mpr h
    rw [ha, Bool.false_and]

/-- Every `buildStep` appends exactly one row of length `m` to the table. -/
theorem buildStep_fst_append (cfg : RouthConfig) (n m : Nat)
    (tn : List (List ℚ) × List Note) (i : Nat) :
    ∃ row, (buildStep cfg n m tn i).1 = tn.1 ++ [row] ∧ row.length = m := by
  simp only [buildStep]
  by_cases h : (stabilizePivot cfg (tn.1.getD (i - 1) [])).all
      (nearZero cfg.zeroRowEpsilon) = true
  · exact ⟨_, by rw [if_pos h], length_polyToRow _ _⟩
  · exact ⟨_, by rw [if_neg h], length_routhNextRow _ _ _⟩

/-- When the (stabilized) previous row is not entirely near zero, the step
takes the standard-recurrence branch. -/
theorem buildStep_of_not_all (cfg : RouthConfig) (n m : Nat)
    (tn : List (List ℚ) × List Note) (i : Nat)
    (hall : (stabilizePivot cfg (tn.1.getD (i - 1) [])).all
      (nearZero cfg.zeroRowEpsilon) = false) :
    buildStep cfg n m tn i =
      (tn.1 ++ [routhNextRow (stabilizePivot cfg (tn.1.getD (i - 1) []))
          (tn.1.getD (i - 2) []) m],
        if nearZero cfg.zeroRowEpsilon ((tn.1.getD (i - 1) []).getD 0 0) then
          tn.2 ++ [Note.pivotEps (n - (i - 1))]
        else tn.2) := by
  simp only [buildStep]
  rw [if_neg]
  rw [hall]
  exact Bool.false_ne_true

/-- A step never records a zero-row note when `epsilon` is at least
`zero_row_epsilon` and the previous row is a genuine table row. -/
theorem buildStep_snd_no_zeroRow (cfg : RouthConfig) (n m : Nat)
    (heps : cfg.zeroRowEpsilon ≤ cfg.epsilon) (hm : 0 < m)
    (tn : List (List ℚ) × List Note) (i : Nat) (hi : i - 1 < tn.1.length)
    (hrows : ∀ row ∈ tn.1, row.length = m) (k : Nat)
    (hk : Note.zeroRow k ∉ tn.2) :
    Note.zeroRow k ∉ (buildStep cfg n m tn i).2 := by
  have hmem : tn.1.getD (i - 1) [] ∈ tn.1 := by
    rw [List.getD_eq_getElem _ _ hi]
    exact List.getElem_mem _
  have hne : tn.1.getD (i - 1) [] ≠ [] := by
    intro hnil
    have hlen := hrows _ hmem
    rw [hnil, List.length_nil] at hlen
    omega
  rw [buildStep_of_not_all cfg n m tn i (stabilizePivot_all_false cfg heps _ hne)]
  by_cases hp : nearZero cfg.zeroRowEpsilon ((tn.1.getD (i - 1) []).getD 0 0) = true
  · rw [if_pos hp]
    intro hmem2
    rcases List.mem_append.mp hmem2 with h | h
    · exact hk h
    · rw [List.mem_singleton] at h
      cases h
  · rw [if_neg hp]
    exact hk

/-- The row loop preserves the structural invariant: after `k` steps the
table has `s + k` rows, each of length `m`. -/
theorem fold_struct (cfg : RouthConfig) (n m : Nat) :
    ∀ (k s : Nat) (tn : List (List ℚ) × List Note),
      tn.1.length = s → (∀ row ∈ tn.1, row.length = m) →
      (((List.range' s k).foldl (buildStep cfg n m) tn).1.length = s + k ∧
        ∀ row ∈ ((List.range' s k).foldl (buildStep cfg n m) tn).1, row.length = m) := by
  intro k
  induction k with
  | zero =>
    intro s tn h1 h2
    exact ⟨h1, h2⟩
  | succ k ih =>
    intro s tn h1 h2
    rw [List.range'_succ, List.foldl_cons]
    obtain ⟨row, heq, hrow⟩ := buildStep_fst_append cfg n m tn s
    have h1' : (buildStep cfg n m tn s).1.length = s + 1 := by
      rw [heq, List.length_append, h1, List.length_singleton]
    have h2' : ∀ r ∈ (buildStep cfg n m tn s).1, r.length = m := by
      rw [heq]
      intro r hr
      rcases List.mem_append.mp hr with h | h
      · exact h2 _ h
      · rw [List.mem_singleton.mp h]
        exact hrow
    obtain ⟨ha, hb⟩ := ih (s + 1) _ h1' h2'
    refine ⟨?_, hb⟩
    rw [ha]
    omega

/-- The row loop records no zero-row note when `epsilon` is at least
`zero_row_epsilon`. -/
theorem fold_no_zeroRow (cfg : RouthConfig) (n m : Nat)
    (heps : cfg.zeroRowEpsilon ≤ cfg.epsilon) (hm : 0 < m) :
    ∀ (k s : Nat) (tn : List (List ℚ) × List Note), 0 < s →
      tn.1.length = s → (∀ row ∈ tn.1, row.length = m) →
      (∀ j, Note.zeroRow j ∉ tn.2) →
      ∀ j, Note.zeroRow j ∉ ((List.range' s k).foldl (buildStep cfg n m) tn).2 := by
  intro k
  induction k with
  | zero =>
    intro s tn _ _ _ hnotes j
    exact hnotes j
  | succ k ih =>
    intro s tn hs h1 h2 hnotes j
    rw [List.range'_succ, List.foldl_cons]
    obtain ⟨row, heq, hrow⟩ := buildStep_fst_append cfg n m tn s
    have h1' : (buildStep cfg n m tn s).1.length = s + 1 := by
      rw [heq, List.length_append, h1, List.length_singleton]
    have h2' : ∀ r ∈ (buildStep cfg n m tn s).1, r.length = m := by
      rw [heq]
      intro r hr
      rcases List.mem_append.mp hr with h | h
      · exact h2 _ h
      · rw [List.mem_singleton.mp h]
        exact hrow
    have hnotes' : ∀ j, Note.zeroRow j ∉ (buildStep cfg n m tn s).2 := by
      intro j'
      exact buildStep_snd_no_zeroRow cfg n m heps hm tn s (by omega) h2 j' (hnotes j')
    exact ih (s + 1) _ (by omega) h1' h2' hnotes' j

/-- The sign-change count is bounded by the number of adjacent pairs. -/
theorem countSignChanges_le (values : List ℚ) (tol : ℚ) :
    countSignChanges values tol ≤ values.length - 1 := by
  unfold countSignChanges
  refine le_trans (List.length_filter_le _ _) ?_
  rw [List.length_zip, List.length_tail, List.length_map]
  exact min_le_right _ _

/-- A successful run is exactly `computeResult` on the normalized input. -/
theorem routhHurwitz_ok_iff (cfg : RouthConfig) (coeffs : List ℚ) (r : RouthResult) :
    routhHurwitz cfg coeffs = Except.ok r ↔
      ∃ cs, routhInit cfg coeffs = Except.ok cs ∧ r = computeResult cfg cs := by
  unfold routhHurwitz
  cases h : routhInit cfg coeffs with
  | error e => simp
  | ok cs => simp [eq_comm]

/-- The normalized coefficient list of a successful validation is nonempty. -/
theorem routhInit_ok_ne_nil (cfg : RouthConfig) (coeffs cs : List ℚ)
    (h : routhInit cfg coeffs = Except.ok cs) : cs ≠ [] := by
  simp only [routhInit] at h
  split_ifs at h with h1 h2 h3 h4 <;>
  first
    | exact Except.noConfusion h
    | (injection h with h
       subst h
       first
         | exact h3
         | (intro hnil
            exact h3 (List.map_eq_nil_iff.mp hnil)))

theorem computeResult_order (cfg : RouthConfig) (cs : List ℚ) :
    (computeResult cfg cs).order = cs.length - 1 := rfl

theorem computeResult_table (cfg : RouthConfig) (cs : List ℚ) :
    (computeResult cfg cs).table = (buildRouthTable cfg cs).1 := rfl

theorem computeResult_firstColumn (cfg : RouthConfig) (cs : List ℚ) :
    (computeResult cfg cs).firstColumn =
      (buildRouthTable cfg cs).1.map (fun r => r.getD 0 0) := rfl

theorem computeResult_rhpPoles (cfg : RouthConfig) (cs : List ℚ) :
    (computeResult cfg cs).rhpPoles =
      countSignChanges ((buildRouthTable cfg cs).1.map (fun r => r.getD 0 0))
        (1 / 1000000000000) := rfl

theorem computeResult_isStable (cfg : RouthConfig) (cs : List ℚ) :
    (computeResult cfg cs).isStable = decide ((computeResult cfg cs).rhpPoles = 0) := rfl

theorem computeResult_notes (cfg : RouthConfig) (cs : List ℚ) :
    (computeResult cfg cs).notes = (buildRouthTable cfg cs).2.2 := rfl

theorem buildRouthTable_fst (cfg : RouthConfig) (cs : List ℚ) :
    (buildRouthTable cfg cs).1 =
      ((List.range' 2 (cs.length - 1 - 1)).foldl
        (buildStep cfg (cs.length - 1) ((cs.length - 1 + 2) / 2))
        ([initialRow cs (cs.length - 1) ((cs.length - 1 + 2) / 2) 0,
          initialRow cs (cs.length - 1) ((cs.length - 1 + 2) / 2) 1], [])).1 := rfl

theorem buildRouthTable_notes (cfg : RouthConfig) (cs : List ℚ) :
    (buildRouthTable cfg cs).2.2 =
      ((List.range' 2 (cs.length - 1 - 1)).foldl
        (buildStep cfg (cs.length - 1) ((cs.length - 1 + 2) / 2))
        ([initialRow cs (cs.length - 1) ((cs.length - 1 + 2) / 2) 0,
          initialRow cs (cs.length - 1) ((cs.length - 1 + 2) / 2) 1], [])).2 := rfl

theorem start_rows (cs : List ℚ) (n m : Nat) :
    ∀ row ∈ [initialRow cs n m 0, initialRow cs n m 1], row.length = m := by
  intro row hr
  rcases List.mem_cons.mp hr with h | h
  · rw [h]
    exact length_initialRow cs n m 0
  · rw [List.mem_singleton.mp h]
    exact length_initialRow cs n m 1

/-- C3: whenever `epsilon` is at least `zero_row_epsilon` (as with the
defaults 1e-6 and 1e-12), the zero-row auxiliary-polynomial branch never
fires: the pivot substitution runs first and makes the all-zero test false,
so no zero-row note ever appears in a returned `RouthResult`. -/
theorem c3_no_zero_row_note (cfg : RouthConfig) (coeffs : List ℚ) (r : RouthResult)
    (heps : cfg.zeroRowEpsilon ≤ cfg.epsilon)
    (hok : routhHurwitz cfg coeffs = Except.ok r) :
    ∀ k, Note.zeroRow k ∉ r.notes := by
  obtain ⟨cs, _, hr⟩ := (routhHurwitz_ok_iff cfg coeffs r).mp hok
  subst hr
  intro k
  rw [computeResult_notes, buildRouthTable_notes]
  exact fold_no_zeroRow cfg (cs.length - 1) ((cs.length - 1 + 2) / 2) heps
    (by omega) (cs.length - 1 - 1) 2
    ([initialRow cs (cs.length - 1) ((cs.length - 1 + 2) / 2) 0,
      initialRow cs (cs.length - 1) ((cs.length - 1 + 2) / 2) 1], [])
    (by omega) rfl
    (start_rows cs (cs.length - 1) ((cs.length - 1 + 2) / 2))
    (fun j hj => absurd hj (List.not_mem_nil _)) k

/-- C5 (amended): for every valid input whose normalized degree is at least
1, the table has `order + 1` rows, every row has `order / 2 + 1` entries,
and the first column is the map of each row's leading entry, of length
`order + 1`.  (A degree-0 input yields 2 rows, not 1.) -/
theorem c5_table_shape (cfg : RouthConfig) (coeffs : List ℚ) (r : RouthResult)
    (hok : routhHurwitz cfg coeffs = Except.ok r) (hord : 1 ≤ r.order) :
    r.table.length = r.order + 1 ∧
      (∀ row ∈ r.table, row.length = r.order / 2 + 1) ∧
      r.firstColumn = r.table.map (fun row => row.getD 0 0) ∧
      r.firstColumn.length = r.order + 1 := by
  obtain ⟨cs, _, hr⟩ := (routhHurwitz_ok_iff cfg coeffs r).mp hok
  subst hr
  rw [computeResult_order] at hord ⊢
  obtain ⟨hlen, hrows⟩ := fold_struct cfg (cs.length - 1) ((cs.length - 1 + 2) / 2)
    (cs.length - 1 - 1) 2
    ([initialRow cs (cs.length - 1) ((cs.length - 1 + 2) / 2) 0,
      initialRow cs (cs.length - 1) ((cs.length - 1 + 2) / 2) 1], []) rfl
    (start_rows cs (cs.length - 1) ((cs.length - 1 + 2) / 2))
  refine ⟨?_, ?_, ?_, ?_⟩
  · rw [computeResult_table, buildRouthTable_fst, hlen]
    omega
  · intro row hrow
    rw [computeResult_table, buildRouthTable_fst] at hrow
    have := hrows row hrow
    omega
  · rw [computeResult_firstColumn, computeResult_table]
  · rw [computeResult_firstColumn, List.length_map, buildRouthTable_fst, hlen]
    omega

/-- C8 (amended): `is_stable` holds exactly when `rhp_poles = 0`, and for
every valid input of normalized degree at least 1 the sign-change count is
bounded by the order.  (With `normalize_leading = False` a degree-0 input
can produce `rhp_poles = 1 > 0 = order`.) -/
theorem c8_bounds (cfg : RouthConfig) (coeffs : List ℚ) (r : RouthResult)
    (hok : routhHurwitz cfg coeffs = Except.ok r) :
    (r.isStable = true ↔ r.rhpPoles = 0) ∧ (1 ≤ r.order → r.rhpPoles ≤ r.order) := by
  obtain ⟨cs, _, hr⟩ := (routhHurwitz_ok_iff cfg coeffs r).mp hok
  subst hr
  constructor
  · rw [computeResult_isStable]
    exact decide_eq_true_iff
  · intro hord
    rw [computeResult_order] at hord ⊢
    rw [computeResult_rhpPoles]
    refine le_trans (countSignChanges_le _ _) ?_
    rw [List.length_map, buildRouthTable_fst]
    obtain ⟨hlen, _⟩ := fold_struct cfg (cs.length - 1) ((cs.length - 1 + 2) / 2)
      (cs.length - 1 - 1) 2
      ([initialRow cs (cs.length - 1) ((cs.length - 1 + 2) / 2) 0,
        initialRow cs (cs.length - 1) ((cs.length - 1 + 2) / 2) 1], []) rfl
      (start_rows cs (cs.length - 1) ((cs.length - 1 + 2) / 2))
    rw [hlen]
    omega

theorem routhHurwitz_error_iff (cfg : RouthConfig) (coeffs : List ℚ) :
    (∃ e, routhHurwitz cfg coeffs = Except.error e) ↔
      (∃ e, routhInit cfg coeffs = Except.error e) := by
  unfold routhHurwitz
  cases h : routhInit cfg coeffs with
  | error e => simp
  | ok cs => simp

/-- C4: the run fails (with `RouthHurwitzError`) exactly when the input is
empty, entirely near zero, or consumed by leading-zero stripping; the error
short-circuits before any table row is built, and in every other case a
`RouthResult` is returned (`routhHurwitz` is total, so the non-error case is
`Except.ok`). -/
theorem c4_error_iff (cfg : RouthConfig) (coeffs : List ℚ) :
    (∃ e, routhHurwitz cfg coeffs = Except.error e) ↔
      (coeffs = [] ∨ (∀ c ∈ coeffs, |c| < cfg.zeroRowEpsilon) ∨
        coeffs.dropWhile (nearZero cfg.zeroRowEpsilon) = []) := by
  rw [routhHurwitz_error_iff]
  simp only [routhInit]
  split_ifs with h1 h2 h3 h4
  · exact iff_of_true ⟨_, rfl⟩ (Or.inl h1)
  · refine iff_of_true ⟨_, rfl⟩ (Or.inr (Or.inl ?_))
    intro x hx
    exact (nearZero_iff _ _).mp (List.all_eq_true.mp h2 x hx)
  · exact iff_of_true ⟨_, rfl⟩ (Or.inr (Or.inr h3))
  · refine iff_of_false ?_ ?_
    · rintro ⟨e, he⟩
      cases he
    · rintro (h | h | h)
      · exact h1 h
      · refine h2 (List.all_eq_true.mpr ?_)
        intro x hx
        exact (nearZero_iff _ _).mpr (h x hx)
      · exact h3 h
  · refine iff_of_false ?_ ?_
    · rintro ⟨e, he⟩
      cases he
    · rintro (h | h | h)
      · exact h1 h
      · refine h2 (List.all_eq_true.mpr ?_)
        intro x hx
        exact (nearZero_iff _ _).mpr (h x hx)
      · exact h3 h

/-- C6: whenever the (possibly pivot-stabilized) previous row is not
entirely near zero, the appended row obeys the standard Routh
cross-multiplication with `prev[0]` (never `prev2[0]`) as divisor, and its
last column entry is zero. -/
theorem c6_recurrence (cfg : RouthConfig) (n m i : Nat)
    (table : List (List ℚ)) (notes : List Note)
    (hlen : table.length = i)
    (hall : (stabilizePivot cfg (table.getD (i - 1) [])).all
      (nearZero cfg.zeroRowEpsilon) = false) :
    (∀ j, j + 1 < m →
      ((buildStep cfg n m (table, notes) i).1.getD i []).getD j 0 =
        ((stabilizePivot cfg (table.getD (i - 1) [])).getD 0 0 *
            (table.getD (i - 2) []).getD (j + 1) 0 -
          (table.getD (i - 2) []).getD 0 0 *
            (stabilizePivot cfg (table.getD (i - 1) [])).getD (j + 1) 0) /
          (stabilizePivot cfg (table.getD (i - 1) [])).getD 0 0) ∧
    (0 < m → ((buildStep cfg n m (table, notes) i).1.getD i []).getD (m - 1) 0 = 0) := by
  have hstep := buildStep_of_not_all cfg n m (table, notes) i hall
  have hrow : (buildStep cfg n m (table, notes) i).1.getD i [] =
      routhNextRow (stabilizePivot cfg (table.getD (i - 1) []))
        (table.getD (i - 2) []) m := by
    rw [hstep, ← hlen]
    exact getD_append_length _ _ _
  constructor
  · intro j hj
    rw [hrow, routhNextRow, getD_range'_map _ _ _ (by omega), if_pos hj]
  · intro hm
    rw [hrow, routhNextRow, getD_range'_map _ _ _ (by omega), if_neg (by omega)]

theorem all_congr_of_eq {α : Type} (l : List α) (p q : α → Bool)
    (h : ∀ x ∈ l, p x = q x) : l.all p = l.all q := by
  induction l with
  | nil => rfl
  | cons a t ih =>
    rw [List.all_cons, List.all_cons, h a (List.mem_cons_self a t),
      ih (fun x hx => h x (List.mem_cons_of_mem a hx))]

theorem dropWhile_map_eq {α : Type} (f : α → α) (p q : α → Bool) :
    ∀ l : List α, (∀ x ∈ l, q (f x) = p x) →
      (l.map f).dropWhile q = (l.dropWhile p).map f := by
  intro l
  induction l with
  | nil => intro _; rfl
  | cons a t ih =>
    intro h
    rw [List.map_cons, List.dropWhile_cons, List.dropWhile_cons,
      h a (List.mem_cons_self a t)]
    split_ifs with hpa
    · exact ih (fun x hx => h x (List.mem_cons_of_mem a hx))
    · rw [List.map_cons]

theorem dropWhile_head_false {α : Type} (p : α → Bool) :
    ∀ (l : List α) (a : α) (t : List α), l.dropWhile p = a :: t → p a = false := by
  intro l
  induction l with
  | nil =>
    intro a t h
    cases h
  | cons b s ih =>
    intro a t h
    rw [List.dropWhile_cons] at h
    by_cases hb : p b = true
    · rw [if_pos hb] at h
      exact ih a t h
    · rw [if_neg hb] at h
      injection h with h1 _
      subst h1
      exact Bool.eq_false_iff.mpr hb

/-- Scaling every coefficient by a positive constant leaves validation and
normalization unchanged, provided the near-zero classification of each
coefficient is unchanged and the tolerance is positive. -/
theorem routhInit_scale (cfg : RouthConfig) (c : ℚ) (coeffs : List ℚ)
    (hc : 0 < c) (hnorm : cfg.normalizeLeading = true) (hz : 0 < cfg.zeroRowEpsilon)
    (hcls : ∀ x ∈ coeffs,
      nearZero cfg.zeroRowEpsilon (c * x) = nearZero cfg.zeroRowEpsilon x) :
    routhInit cfg (coeffs.map (fun x => c * x)) = routhInit cfg coeffs := by
  by_cases hnil : coeffs = []
  · subst hnil
    rfl
  have hmapnil : coeffs.map (fun x => c * x) ≠ [] := by
    rw [Ne, List.map_eq_nil_iff]
    exact hnil
  have hall : (coeffs.map (fun x => c * x)).all (nearZero cfg.zeroRowEpsilon)
      = coeffs.all (nearZero cfg.zeroRowEpsilon) := by
    rw [List.all_map]
    exact all_congr_of_eq coeffs _ _ (fun x hx => hcls x hx)
  have hdrop : (coeffs.map (fun x => c * x)).dropWhile (nearZero cfg.zeroRowEpsilon)
      = (coeffs.dropWhile (nearZero cfg.zeroRowEpsilon)).map (fun x => c * x) :=
    dropWhile_map_eq _ _ _ coeffs hcls
  simp only [routhInit]
  rw [if_neg hmapnil, if_neg hnil, hall]
  by_cases hallb : coeffs.all (nearZero cfg.zeroRowEpsilon) = true
  · rw [if_pos hallb, if_pos hallb]
  rw [if_neg hallb, if_neg hallb, hdrop]
  by_cases hsnil : coeffs.dropWhile (nearZero cfg.zeroRowEpsilon) = []
  · rw [hsnil, List.map_nil]
  obtain ⟨a, t, hst⟩ := List.exists_cons_of_ne_nil hsnil
  rw [hst, List.map_cons]
  have hsa : nearZero cfg.zeroRowEpsilon a = false := dropWhile_head_false _ coeffs a t hst
  have ha0 : 0 < |a| := by
    rcases lt_or_eq_of_le (abs_nonneg a) with h | h
    · exact h
    · exfalso
      have ha : a = 0 := abs_eq_zero.mp h.symm
      have : nearZero cfg.zeroRowEpsilon a = true := by
        rw [nearZero_iff, ha, abs_zero]
        exact hz
      rw [this] at hsa
      exact Bool.noConfusion hsa
  have hca0 : 0 < |c * a| := by
    rw [abs_mul]
    exact mul_pos (abs_pos.mpr (ne_of_gt hc)) ha0
  rw [if_neg (List.cons_ne_nil _ _), if_neg (List.cons_ne_nil _ _),
    List.getD_cons_zero, List.getD_cons_zero]
  rw [if_pos ⟨hnorm, by rw [qabs_eq_abs]; exact hca0⟩,
    if_pos ⟨hnorm, by rw [qabs_eq_abs]; exact ha0⟩]
  congr 1
  rw [← List.map_cons (fun x => c * x) a t, List.map_map]
  exact List.map_congr_left (fun x _ => mul_div_mul_left x a (ne_of_gt hc))

/-- C7 (amended): with `normalize_leading` enabled (the default), a positive
tolerance, and a positive scalar whose application does not change which
coefficients count as near zero, the scaled run returns the very same
`RouthResult` (hence the same `rhp_poles` and `is_stable`).  Without the
classification condition the property fails, because leading-zero stripping
is not scale invariant. -/
theorem c7_scale_invariance (cfg : RouthConfig) (c : ℚ) (coeffs : List ℚ)
    (hc : 0 < c) (hnorm : cfg.normalizeLeading = true) (hz : 0 < cfg.zeroRowEpsilon)
    (hcls : ∀ x ∈ coeffs, (|c * x| < cfg.zeroRowEpsilon ↔ |x| < cfg.zeroRowEpsilon)) :
    routhHurwitz cfg (coeffs.map (fun x => c * x)) = routhHurwitz cfg coeffs := by
  have hinit : routhInit cfg (coeffs.map (fun x => c * x)) = routhInit cfg coeffs := by
    apply routhInit_scale cfg c coeffs hc hnorm hz
    intro x hx
    rw [nearZero, nearZero, decide_eq_decide, qabs_eq_abs, qabs_eq_abs]
    exact hcls x hx
  unfold routhHurwitz
  rw [hinit]

/-- C9: the pivot substitution operates on a copy used only as divisor.  The
general conjunct states that every row already committed to the table is
left unchanged by all remaining loop iterations (each of which may
stabilize a copy of its previous row); the concrete conjunct shows a run
where the substitution fired (one pivot note) and yet the stored row
`s^2` and first-column entry keep the original 0 instead of epsilon. -/
theorem c9_committed_rows_frame (cfg : RouthConfig) (n m : Nat) :
    (∀ (k s : Nat) (tn : List (List ℚ) × List Note),
      (((List.range' s k).foldl (buildStep cfg n m) tn).1).take tn.1.length = tn.1) ∧
    (routhHurwitz defaultCfg [1, 0, 2, 0]).map
        (fun r => (r.table.getD 1 [], r.firstColumn.getD 1 1, r.notes)) =
      Except.ok (([0, 0] : List ℚ), (0 : ℚ), [Note.pivotEps 2]) := by
  constructor
  · intro k
    induction k with
    | zero =>
      intro s tn
      exact List.take_length tn.1
    | succ k ih =>
      intro s tn
      rw [List.range'_succ, List.foldl_cons]
      obtain ⟨row, heq, _⟩ := buildStep_fst_append cfg n m tn s
      have h2 := ih (s + 1) (buildStep cfg n m tn s)
      rw [heq, List.length_append, List.length_singleton] at h2
      have h3 : (((List.range' (s + 1) k).foldl (buildStep cfg n m)
          (buildStep cfg n m tn s)).1).take tn.1.length =
          (tn.1 ++ [row]).take tn.1.length := by
        rw [← h2, List.take_take]
        congr 1
        omega
      rw [h3, List.take_left]
  · norm_num [routhHurwitz, routhInit, computeResult, buildRouthTable, buildStep,
      initialRow_eq, stabilizePivot, routhNextRow, countSignChanges,
      signChangePair, nearZero, qabs, defaultCfg, polyToRow, rowToPoly,
      polyDerivative, List.range', List.getD, Except.map, List.dropWhile,
      List.foldl, List.filter, List.zip, List.all, List.cons_ne_nil]

/-- C10: for a coefficient list of length at least 2 (degree at least 1),
the derivative helper has length `d` and obeys the standard rule: the
coefficient at power `p` equals the input coefficient at power `p + 1`
multiplied by `p + 1`. -/
theorem c10_poly_derivative (poly : List ℚ) (hlen : 2 ≤ poly.length) :
    (polyDerivative poly).length = poly.length - 1 ∧
      ∀ p, p < poly.length - 1 →
        polyCoeffAtPow (polyDerivative poly) p =
          polyCoeffAtPow poly (p + 1) * ((p + 1 : Nat) : ℚ) := by
  have hgt : ¬ poly.length ≤ 1 := by omega
  have hlen2 : (polyDerivative poly).length = poly.length - 1 := by
    rw [polyDerivative, if_neg hgt, List.length_map, List.length_range']
  refine ⟨hlen2, ?_⟩
  intro p hp
  rw [polyCoeffAtPow, hlen2, polyDerivative, if_neg hgt,
    getD_range'_map _ _ _ (by omega), polyCoeffAtPow]
  have e1 : poly.length - 1 - 1 - p = poly.length - 1 - (p + 1) := by omega
  have e2 : poly.length - 1 - (poly.length - 1 - 1 - p) = p + 1 := by omega
  rw [e2, e1]

/-- C1 (divergence evaluation): on `[1, 0, 2, 0, 1]` with the default
configuration the code returns `rhp_poles = 0` and `is_stable = true` as
claimed, but its notes are two pivot-epsilon substitutions (rows `s^3` and
`s^1`) and no zero-row resolution at all: the pivot check runs first, so
the advertised auxiliary-polynomial path never fires. -/
theorem c1_code_eval :
    (routhHurwitz defaultCfg [1, 0, 2, 0, 1]).map
        (fun r => (r.rhpPoles, r.isStable, r.notes)) =
      Except.ok (0, true, [Note.pivotEps 3, Note.pivotEps 1]) := by
  norm_num [routhHurwitz, routhInit, computeResult, buildRouthTable, buildStep,
    initialRow_eq, stabilizePivot, routhNextRow, countSignChanges,
    signChangePair, nearZero, qabs, defaultCfg, polyToRow, rowToPoly,
    polyDerivative, List.range', List.getD, Except.map, List.dropWhile,
    List.foldl, List.filter, List.zip, List.all, List.cons_ne_nil]

/-- C2 (divergence evaluation): at step `i = 2` of `[1, 0, 2, 0, 1]` the
previous row `[0, 0, 0]` is entirely near zero, yet the step substitutes
epsilon for the pivot and applies the standard recurrence, producing
`[2, 1, 0]` and a pivot note; the auxiliary-polynomial derivative row that
the specification orders first would have been `[4, 4, 0]` with a zero-row
note. -/
theorem c2_order_of_checks :
    buildStep defaultCfg 4 3 ([[1, 2, 1], [0, 0, 0]], []) 2 =
      ([[1, 2, 1], [0, 0, 0], [2, 1, 0]], [Note.pivotEps 3]) ∧
    (([0, 0, 0] : List ℚ).all (nearZero defaultCfg.zeroRowEpsilon) = true) ∧
    polyToRow (polyDerivative (rowToPoly [1, 2, 1] 4)) 3 = [4, 4, 0] := by
  norm_num [buildStep, initialRow_eq, stabilizePivot, routhNextRow,
    nearZero, qabs, defaultCfg, polyToRow, rowToPoly, polyDerivative,
    List.range', List.getD, List.all, List.cons_ne_nil]

/-- C5 (counterexample): the valid degree-0 input `[1]` yields a table of 2
rows and a first column of length 2, not `order + 1 = 1`. -/
theorem c5_degree_zero_counterexample :
    (routhHurwitz defaultCfg [1]).map
        (fun r => (r.order, r.table.length, r.firstColumn.length)) =
      Except.ok (0, 2, 2) ∧
    (routhHurwitz defaultCfg [1]).map
        (fun r => decide (r.table.length = r.order + 1)) = Except.ok false := by
  constructor <;>
  norm_num [routhHurwitz, routhInit, computeResult, buildRouthTable, buildStep,
    initialRow_eq, stabilizePivot, routhNextRow, countSignChanges,
    signChangePair, nearZero, qabs, defaultCfg, polyToRow, rowToPoly,
    polyDerivative, List.range', List.getD, Except.map, List.dropWhile,
    List.foldl, List.filter, List.zip, List.all, List.cons_ne_nil]

/-- C7 (counterexample): `[1e-13, -1, -1]` is a valid input whose run is
stable, but scaling by the positive constant 100 lifts the leading
coefficient above the stripping tolerance and the scaled run reports one
right-half-plane pole and instability. -/
theorem c7_scale_counterexample :
    (routhHurwitz defaultCfg [1 / 10000000000000, -1, -1]).map
        (fun r => (r.rhpPoles, r.isStable)) = Except.ok (0, true) ∧
    (routhHurwitz defaultCfg (([1 / 10000000000000, -1, -1] : List ℚ).map
        (fun x => 100 * x))).map (fun r => (r.rhpPoles, r.isStable)) =
      Except.ok (1, false) := by
  constructor <;>
  norm_num [routhHurwitz, routhInit, computeResult, buildRouthTable, buildStep,
    initialRow_eq, stabilizePivot, routhNextRow, countSignChanges,
    signChangePair, nearZero, qabs, defaultCfg, polyToRow, rowToPoly,
    polyDerivative, List.range', List.getD, Except.map, List.dropWhile,
    List.foldl, List.filter, List.zip, List.all, List.cons_ne_nil]

/-- C8 (counterexample): with `normalize_leading = False` the valid degree-0
input `[-5]` produces `rhp_poles = 1 > 0 = order`, refuting the bound
`rhp_poles ≤ order` as universally stated. -/
theorem c8_order_bound_counterexample :
    (routhHurwitz cfgNoNormalize [-5]).map
        (fun r => (r.order, r.rhpPoles, r.isStable)) = Except.ok (0, 1, false) ∧
    (routhHurwitz cfgNoNormalize [-5]).map
        (fun r => decide (r.rhpPoles ≤ r.order)) = Except.ok false := by
  constructor <;>
  norm_num [routhHurwitz, routhInit, computeResult, buildRouthTable, buildStep,
    initialRow_eq, stabilizePivot, routhNextRow, countSignChanges,
    signChangePair, nearZero, qabs, cfgNoNormalize, polyToRow, rowToPoly,
    polyDerivative, List.range', List.getD, Except.map, List.dropWhile,
    List.foldl, List.filter, List.zip, List.all, List.cons_ne_nil]

theorem c3_no_zero_row_note_witness : Note.zeroRow 1 ∉ resultOf10201.notes :=
  c3_no_zero_row_note defaultCfg [1, 0, 2, 0, 1] resultOf10201
    (by norm_num [defaultCfg])
    (by norm_num [routhHurwitz, routhInit, computeResult, buildRouthTable,
      buildStep, initialRow_eq, stabilizePivot, routhNextRow, countSignChanges,
      signChangePair, nearZero, qabs, defaultCfg, polyToRow, rowToPoly,
      polyDerivative, resultOf10201, List.range', List.getD, Except.map,
      List.dropWhile, List.foldl, List.filter, List.zip, List.all,
      List.cons_ne_nil]) 1

theorem c4_error_iff_witness : ∃ e, routhHurwitz defaultCfg [] = Except.error e :=
  (c4_error_iff defaultCfg []).mpr (Or.inl rfl)

theorem c5_table_shape_witness :
    resultOf1234.table.length = resultOf1234.order + 1 ∧
      ([1, 3] : List ℚ).length = resultOf1234.order / 2 + 1 ∧
      resultOf1234.firstColumn = resultOf1234.table.map (fun row => row.getD 0 0) ∧
      resultOf1234.firstColumn.length = resultOf1234.order + 1 := by
  have h := c5_table_shape defaultCfg [1, 2, 3, 4] resultOf1234
    (by norm_num [routhHurwitz, routhInit, computeResult, buildRouthTable,
      buildStep, initialRow_eq, stabilizePivot, routhNextRow, countSignChanges,
      signChangePair, nearZero, qabs, defaultCfg, polyToRow, rowToPoly,
      polyDerivative, resultOf1234, List.range', List.getD, Except.map,
      List.dropWhile, List.foldl, List.filter, List.zip, List.all,
      List.cons_ne_nil])
    (by norm_num [resultOf1234])
  exact ⟨h.1, h.2.1 [1, 3] (by norm_num [resultOf1234]), h.2.2.1, h.2.2.2⟩

theorem c6_recurrence_witness :
    ((buildStep defaultCfg 3 2 ([[1, 2], [3, 4]], []) 2).1.getD 2 []).getD 0 0 =
      ((stabilizePivot defaultCfg (([[1, 2], [3, 4]] :
            List (List ℚ)).getD 1 [])).getD 0 0 *
          (([[1, 2], [3, 4]] : List (List ℚ)).getD 0 []).getD 1 0 -
        (([[1, 2], [3, 4]] : List (List ℚ)).getD 0 []).getD 0 0 *
          (stabilizePivot defaultCfg (([[1, 2], [3, 4]] :
            List (List ℚ)).getD 1 [])).getD 1 0) /
        (stabilizePivot defaultCfg (([[1, 2], [3, 4]] :
          List (List ℚ)).getD 1 [])).getD 0 0 ∧
    ((buildStep defaultCfg 3 2 ([[1, 2], [3, 4]], []) 2).1.getD 2 []).getD 1 0 = 0 := by
  have h := c6_recurrence defaultCfg 3 2 2 [[1, 2], [3, 4]] [] (by norm_num)
    (by norm_num [stabilizePivot, nearZero, qabs, defaultCfg, List.getD,
      List.all, List.cons_ne_nil])
  exact ⟨h.1 0 (by norm_num), h.2 (by norm_num)⟩

theorem c7_scale_invariance_witness :
    routhHurwitz defaultCfg (([1, 2, 3, 4] : List ℚ).map (fun x => 2 * x)) =
      routhHurwitz defaultCfg [1, 2, 3, 4] :=
  c7_scale_invariance defaultCfg 2 [1, 2, 3, 4] (by norm_num) rfl
    (by norm_num [defaultCfg]) (by norm_num [defaultCfg])

theorem c8_bounds_witness :
    (resultOf1234.isStable = true ↔ resultOf1234.rhpPoles = 0) ∧
      resultOf1234.rhpPoles ≤ resultOf1234.order := by
  have h := c8_bounds defaultCfg [1, 2, 3, 4] resultOf1234
    (by norm_num [routhHurwitz, routhInit, computeResult, buildRouthTable,
      buildStep, initialRow_eq, stabilizePivot, routhNextRow, countSignChanges,
      signChangePair, nearZero, qabs, defaultCfg, polyToRow, rowToPoly,
      polyDerivative, resultOf1234, List.range', List.getD, Except.map,
      List.dropWhile, List.foldl, List.filter, List.zip, List.all,
      List.cons_ne_nil])
  exact ⟨h.1, h.2 (by norm_num [resultOf1234])⟩

theorem c10_poly_derivative_witness :
    (polyDerivative [3, 2, 1]).length = ([3, 2, 1] : List ℚ).length - 1 ∧
      polyCoeffAtPow (polyDerivative [3, 2, 1]) 0 =
        polyCoeffAtPow [3, 2, 1] (0 + 1) * ((0 + 1 : Nat) : ℚ) :=
  ⟨(c10_poly_derivative [3, 2, 1] (by norm_num)).1,
    (c10_poly_derivative [3, 2, 1] (by norm_num)).2 0 (by norm_num)⟩
